import Mathlib

/-!
Shallow embedding of the natal-chart derivation core of `astrology-mcp`
(`src/utils` astrology helpers, `src/services/aspect-calculator.ts`,
`src/services/chart-calculator.ts`, `src/constants`).  Real-number values
that JavaScript represents as `number` are modelled as rationals `ℚ`;
JavaScript's truncated remainder `%` is modelled explicitly (`jsRem`),
and partial array indexing is modelled with `Option`.
-/

set_option maxRecDepth 100000

/-- JavaScript `Math.trunc`-style truncation of a rational toward zero. -/
def qtrunc (q : ℚ) : ℤ := if 0 ≤ q then ⌊q⌋ else ⌈q⌉

/-- JavaScript `x % y`: truncated remainder, `x - y * trunc (x / y)`. -/
def jsRem (x y : ℚ) : ℚ := x - y * (qtrunc (x / y) : ℚ)

/-- Mathematical (floor-based) modulus on rationals, as written in the spec
(`x mod y`, always in `[0, y)` for `y > 0`). -/
def qmod (x y : ℚ) : ℚ := x - y * (⌊x / y⌋ : ℚ)

/-- `((degree % 360) + 360) % 360` from `degreeToZodiacSign` /
`calculateHousePositionForPlanet` (JS `%`). -/
def normDeg (degree : ℚ) : ℚ := jsRem (jsRem degree 360 + 360) 360

/-- One entry of the `ZODIAC_SIGNS` static table. -/
structure ZodiacSign where
  label : String
  key : String
deriving DecidableEq

/-- The `ZODIAC_SIGNS` catalog from `src/constants/celestial-bodies.ts`. -/
def ZODIAC_SIGNS : List ZodiacSign :=
  [⟨"Aries", "aries"⟩, ⟨"Taurus", "taurus"⟩, ⟨"Gemini", "gemini"⟩,
   ⟨"Cancer", "cancer"⟩, ⟨"Leo", "leo"⟩, ⟨"Virgo", "virgo"⟩,
   ⟨"Libra", "libra"⟩, ⟨"Scorpio", "scorpio"⟩, ⟨"Sagittarius", "sagittarius"⟩,
   ⟨"Capricorn", "capricorn"⟩, ⟨"Aquarius", "aquarius"⟩, ⟨"Pisces", "pisces"⟩]

/-- JavaScript array indexing `l[i]` with a signed index: `undefined`
(here `none`) when out of range. -/
def listGetInt {α : Type} (l : List α) (i : ℤ) : Option α :=
  if 0 ≤ i then l.get? i.toNat else none

/-- The `signIndex` computed in `degreeToZodiacSign`:
`Math.floor(normalizedDegree / 30)`. -/
def signIndex (degree : ℚ) : ℤ := ⌊normDeg degree / 30⌋

/-- Result record of `degreeToZodiacSign`. -/
structure ZodiacInfo where
  sign : String
  signKey : String
  degreeInSign : ℚ
deriving DecidableEq

/-- `degreeToZodiacSign` from the source: normalize, index the sign table,
take `normalizedDegree % 30` as degree-in-sign.  The table lookup is kept
partial (`Option`), as JS indexing is. -/
def degreeToZodiacSign (degree : ℚ) : Option ZodiacInfo :=
  match listGetInt ZODIAC_SIGNS (signIndex degree) with
  | some s => some ⟨s.label, s.key, jsRem (normDeg degree) 30⟩
  | none => none

/-- Input record of `calculateAspects` (only `name` and `longitude` are read). -/
structure PlanetPos where
  name : String
  longitude : ℚ
deriving DecidableEq

/-- One entry of the `ASPECT_TYPES` static table
(`src/constants/aspects.ts`). -/
structure AspectType where
  name : String
  key : String
  angle : ℚ
  orb : ℚ
  level : String
deriving DecidableEq

/-- The fixed `ASPECT_TYPES` catalog. -/
def ASPECT_TYPES : List AspectType :=
  [⟨"Conjunction", "conjunction", 0, 10, "major"⟩,
   ⟨"Sextile", "sextile", 60, 6, "major"⟩,
   ⟨"Square", "square", 90, 8, "major"⟩,
   ⟨"Trine", "trine", 120, 8, "major"⟩,
   ⟨"Opposition", "opposition", 180, 10, "major"⟩,
   ⟨"Semi-Sextile", "semisextile", 30, 3, "minor"⟩,
   ⟨"Semi-Square", "semisquare", 45, 3, "minor"⟩,
   ⟨"Sesquiquadrate", "sesquiquadrate", 135, 3, "minor"⟩,
   ⟨"Quincunx", "quincunx", 150, 3, "minor"⟩]

/-- Record pushed by `calculateAspects` for each detected aspect. -/
structure DetectedAspect where
  point1 : String
  point2 : String
  aspect : String
  aspectLevel : String
  orb : ℚ
  orbUsed : ℚ
deriving DecidableEq

/-- `parseFloat(x.toFixed(2))` on the nonnegative orb values the detector
produces: round to the nearest hundredth, halves up. -/
def round2 (q : ℚ) : ℚ := (⌊q * 100 + 1 / 2⌋ : ℚ) / 100

/-- The `diff` computed for a pair in `calculateAspects`:
`|l1 - l2|`, replaced by `360 - diff` when `diff > 180`. -/
def pairDiff (l1 l2 : ℚ) : ℚ :=
  let diff := |l1 - l2|
  if diff > 180 then 360 - diff else diff

/-- The inner aspect-type loop of `calculateAspects` for one planet pair:
for each catalog entry, push a `DetectedAspect` when `orb <= aspectType.orb`. -/
def aspectsForPair (planet1 planet2 : PlanetPos) : List DetectedAspect :=
  ASPECT_TYPES.filterMap (fun aspectType =>
    let orb := |pairDiff planet1.longitude planet2.longitude - aspectType.angle|
    if orb ≤ aspectType.orb then
      some ⟨planet1.name, planet2.name, aspectType.name, aspectType.level,
            round2 orb, aspectType.orb⟩
    else none)

/-- Placeholder for out-of-range list reads; never hit by
`calculateAspects` since both loop indices stay below `planets.length`. -/
def emptyPlanet : PlanetPos := ⟨"", 0⟩

/-- `calculateAspects` from `src/services/aspect-calculator.ts`: the nested
index loops `i < j < planets.length`, pushing into one flat list. -/
def calculateAspects (planets : List PlanetPos) : List DetectedAspect :=
  (List.range planets.length).flatMap (fun i =>
    (List.range' (i + 1) (planets.length - (i + 1))).flatMap (fun j =>
      aspectsForPair (planets.getD i emptyPlanet) (planets.getD j emptyPlanet)))

/-- Spec 4.4's pair enumeration: every unordered pair exactly once, outer
element before inner, in catalog order. -/
def orderedPairs {α : Type} : List α → List (α × α)
  | [] => []
  | p :: rest => (rest.map (fun q => (p, q))) ++ orderedPairs rest

/-- Written from the spec's words (4.4): angular separation folded into
`[0, 180]`. -/
def specAngularSeparation (a b : ℚ) : ℚ :=
  if |a - b| > 180 then 360 - |a - b| else |a - b|

/-- Written from the spec's words (4.4): for each unordered pair in catalog
order and each `AspectDefinition` in catalog order, emit a `DetectedAspect`
iff `|diff - exactAngle| <= maximumOrb`, orb rounded to 2 decimals,
`maximumOrb` as `orbUsed`; all matches emitted. -/
def specDetect (positions : List PlanetPos) : List DetectedAspect :=
  (orderedPairs positions).flatMap (fun pr =>
    ASPECT_TYPES.filterMap (fun d =>
      let orb := |specAngularSeparation pr.1.longitude pr.2.longitude - d.angle|
      if orb ≤ d.orb then
        some ⟨pr.1.name, pr.2.name, d.name, d.level, round2 orb, d.orb⟩
      else none))

/-- The membership test of one iteration of the loop in
`calculateHousePositionForPlanet`: wrap-aware span membership. -/
def houseMatch (n : ℚ) (cusps : ℕ → ℚ) (i : ℕ) : Bool :=
  let currentCusp := cusps i
  let nextCusp := if i = 12 then cusps 1 else cusps (i + 1)
  if nextCusp > currentCusp then
    decide (n ≥ currentCusp ∧ n < nextCusp)
  else
    decide (n ≥ currentCusp ∨ n < nextCusp)

/-- The `for (let i = 1; i <= 12; i++)` loop of
`calculateHousePositionForPlanet`, fuelled by the remaining iteration
count; falls through to the `return 1` default. -/
def houseScan (n : ℚ) (cusps : ℕ → ℚ) : ℕ → ℕ → ℕ
  | 0, _ => 1
  | fuel + 1, i => if houseMatch n cusps i then i else houseScan n cusps fuel (i + 1)

/-- `calculateHousePositionForPlanet` from the source: normalize the
longitude, scan houses 1..12, default to house 1. -/
def calculateHousePositionForPlanet (longitude : ℚ) (cusps : ℕ → ℚ) : ℕ :=
  houseScan (normDeg longitude) cusps 12 1

/-- The (degrees, minutes, seconds) triple computed by
`formatZodiacDegree`: `Math.floor` truncation at each step. -/
def dmsParts (degreeInSign : ℚ) : ℤ × ℤ × ℤ :=
  let deg := ⌊degreeInSign⌋
  let mnt := ⌊(degreeInSign - deg) * 60⌋
  let sec := ⌊((degreeInSign - deg) * 60 - mnt) * 60⌋
  (deg, mnt, sec)

/-- `formatZodiacDegree` from the source: the degree part, a degree sign,
the minute part, a minute tick (escaped), the second part and a second
tick (escaped). -/
def formatZodiacDegree (degreeInSign : ℚ) : String :=
  let p := dmsParts degreeInSign
  toString p.1 ++ "° " ++ toString p.2.1 ++ "\x27 " ++ toString p.2.2 ++ "\x22"

/-- `parseFloat(x.toFixed(6))`: round to the nearest millionth, halves away
from zero. -/
def round6 (q : ℚ) : ℚ :=
  if 0 ≤ q then (⌊q * 1000000 + 1 / 2⌋ : ℚ) / 1000000
  else -((⌊-q * 1000000 + 1 / 2⌋ : ℚ) / 1000000)

/-- One chart angle as built in `formatNatalChartData`. -/
structure ChartAngle where
  sign : String
  degree : String
  longitude : ℚ
deriving DecidableEq

/-- The `{ sign, degree, longitude }` record `formatNatalChartData` builds
from an angle's ecliptic longitude (partial through the sign lookup). -/
def mkChartAngle (lon : ℚ) : Option ChartAngle :=
  match degreeToZodiacSign lon with
  | some info => some ⟨info.sign, formatZodiacDegree info.degreeInSign, round6 lon⟩
  | none => none

/-- `descendantDegree = (chartData.houses.ascendant + 180) % 360` (JS `%`). -/
def descendantDegree (ascendant : ℚ) : ℚ := jsRem (ascendant + 180) 360

/-- `imumCoeliDegree = (chartData.houses.mc + 180) % 360` (JS `%`). -/
def imumCoeliDegree (mc : ℚ) : ℚ := jsRem (mc + 180) 360

/-- The `chartAngles` object of `formatNatalChartData`. -/
structure ChartAngles where
  ascendant : Option ChartAngle
  descendant : Option ChartAngle
  midheaven : Option ChartAngle
  imumCoeli : Option ChartAngle

/-- The chart-angle section of `formatNatalChartData`: ascendant and
midheaven mapped directly, descendant and imum coeli derived by the
`+180 mod 360` complement and then mapped. -/
def deriveChartAngles (ascendant mc : ℚ) : ChartAngles :=
  ⟨mkChartAngle ascendant, mkChartAngle (descendantDegree ascendant),
   mkChartAngle mc, mkChartAngle (imumCoeliDegree mc)⟩

/-- The fields of a computed planet that the sun-sign derivation in
`formatNatalChartData` reads. -/
structure PlanetData where
  name : String
  key : String
  zodiacSign : String
deriving DecidableEq

/-- `formatNatalChartData`'s sun sign:
`planets.find(p => p.key === "sun")`, `"Unknown"` when absent. -/
def sunSignOf (planets : List PlanetData) : String :=
  match planets.find? (fun p => p.key == "sun") with
  | some p => p.zodiacSign
  | none => "Unknown"

-- Basic facts about `jsRem`, `qmod` and `normDeg`.

theorem jsRem_eq_qmod_of_nonneg (x y : ℚ) (hx : 0 ≤ x) (hy : 0 < y) :
    jsRem x y = qmod x y := by
  unfold jsRem qmod qtrunc
  have : 0 ≤ x / y := div_nonneg hx (le_of_lt hy)
  simp [this]

theorem qmod_nonneg (x y : ℚ) (hy : 0 < y) : 0 ≤ qmod x y := by
  unfold qmod
  have h := Int.floor_le (x / y)
  have h2 : (⌊x / y⌋ : ℚ) * y ≤ (x / y) * y :=
    mul_le_mul_of_nonneg_right h (le_of_lt hy)
  rw [div_mul_cancel₀ x (ne_of_gt hy)] at h2
  linarith

theorem qmod_lt (x y : ℚ) (hy : 0 < y) : qmod x y < y := by
  unfold qmod
  have h := Int.lt_floor_add_one (x / y)
  have h2 : (x / y) * y < (⌊x / y⌋ + 1 : ℚ) * y :=
    mul_lt_mul_of_pos_right h hy
  rw [div_mul_cancel₀ x (ne_of_gt hy)] at h2
  linarith

/-- `qmod x y` is characterised by its range and differing from `x` by an
integer multiple of `y`. -/
theorem qmod_eq_of (x y v : ℚ) (k : ℤ) (hy : 0 < y) (h0 : 0 ≤ v) (h1 : v < y)
    (hk : x = v + y * k) : qmod x y = v := by
  unfold qmod
  have hxy : x / y = v / y + (k : ℚ) := by
    rw [hk]; field_simp; ring
  have hvy0 : 0 ≤ v / y := div_nonneg h0 (le_of_lt hy)
  have hvy1 : v / y < 1 := (div_lt_one hy).mpr h1
  have hfl : ⌊x / y⌋ = k := by
    rw [hxy, Int.floor_add_int]
    have : ⌊v / y⌋ = 0 := Int.floor_eq_zero_iff.mpr ⟨hvy0, hvy1⟩
    rw [this]; ring
  rw [hfl, hk]; ring

theorem jsRem_gt_neg (x y : ℚ) (hy : 0 < y) : -y < jsRem x y := by
  unfold jsRem qtrunc
  by_cases h : 0 ≤ x / y
  · simp only [h, if_true]
    have hfl := Int.floor_le (x / y)
    have h2 : (⌊x / y⌋ : ℚ) * y ≤ (x / y) * y :=
      mul_le_mul_of_nonneg_right hfl (le_of_lt hy)
    rw [div_mul_cancel₀ x (ne_of_gt hy)] at h2
    nlinarith
  · simp only [h, if_false]
    have hcl := Int.ceil_lt_add_one (x / y)
    have h2 : (⌈x / y⌉ : ℚ) * y < (x / y + 1) * y :=
      mul_lt_mul_of_pos_right hcl hy
    rw [add_mul, div_mul_cancel₀ x (ne_of_gt hy)] at h2
    nlinarith

theorem jsRem_lt (x y : ℚ) (hy : 0 < y) : jsRem x y < y := by
  unfold jsRem qtrunc
  by_cases h : 0 ≤ x / y
  · simp only [h, if_true]
    have hfl := Int.lt_floor_add_one (x / y)
    have h2 : (x / y) * y < (⌊x / y⌋ + 1 : ℚ) * y :=
      mul_lt_mul_of_pos_right hfl hy
    rw [div_mul_cancel₀ x (ne_of_gt hy)] at h2
    nlinarith
  · simp only [h, if_false]
    have hcl := Int.le_ceil (x / y)
    have h2 : (x / y) * y ≤ (⌈x / y⌉ : ℚ) * y :=
      mul_le_mul_of_nonneg_right hcl (le_of_lt hy)
    rw [div_mul_cancel₀ x (ne_of_gt hy)] at h2
    nlinarith

/-- `normDeg` computes the mathematical modulus `degree mod 360`
(in particular it is correct for negative inputs). -/
theorem normDeg_eq_qmod (degree : ℚ) : normDeg degree = qmod degree 360 := by
  have h360 : (0:ℚ) < 360 := by norm_num
  have hgt := jsRem_gt_neg degree 360 h360
  have hlt := jsRem_lt degree 360 h360
  have hs0 : 0 ≤ jsRem degree 360 + 360 := by linarith
  have step : normDeg degree = qmod (jsRem degree 360 + 360) 360 := by
    unfold normDeg
    exact jsRem_eq_qmod_of_nonneg _ 360 hs0 h360
  have hv0 : 0 ≤ qmod (jsRem degree 360 + 360) 360 := qmod_nonneg _ 360 h360
  have hv1 : qmod (jsRem degree 360 + 360) 360 < 360 := qmod_lt _ 360 h360
  rw [step]
  symm
  apply qmod_eq_of degree 360 _ (qtrunc (degree / 360) - 1 + ⌊(jsRem degree 360 + 360) / 360⌋) h360 hv0 hv1
  unfold qmod
  push_cast
  unfold jsRem
  ring

/-- The normalized degree is always in `[0, 360)`. -/
theorem normDeg_bounds (degree : ℚ) : 0 ≤ normDeg degree ∧ normDeg degree < 360 := by
  rw [normDeg_eq_qmod]
  exact ⟨qmod_nonneg _ 360 (by norm_num), qmod_lt _ 360 (by norm_num)⟩


-- Loop-to-pair-list equivalence for the aspect detector.

theorem range_flatMap_getD {α β : Type} (l : List α) (d : α) (g : α → List β) :
    (List.range l.length).flatMap (fun i => g (l.getD i d)) = l.flatMap g := by
  induction l with
  | nil => simp
  | cons a t ih =>
    rw [List.length_cons, List.range_succ_eq_map]
    rw [List.flatMap_cons]
    simp only [List.flatMap_map, Function.comp]
    simp only [List.getD_cons_zero, List.getD_cons_succ]
    rw [ih, List.flatMap_cons]

theorem range'_succ_flatMap {β : Type} (s k : ℕ) (g : ℕ → List β) :
    (List.range' (s + 1) k).flatMap g = (List.range' s k).flatMap (fun j => g (j + 1)) := by
  rw [List.range'_eq_map_range, List.range'_eq_map_range, List.flatMap_map, List.flatMap_map]
  congr 1
  funext j
  show g (s + 1 + j) = g (s + j + 1)
  congr 1
  omega

/-- The nested `i < j` index loops over a list enumerate exactly the ordered
pairs of the list, in order. -/
theorem pairs_loop_eq {α β : Type} (F : α → α → List β) (d : α) (l : List α) :
    (List.range l.length).flatMap (fun i =>
      (List.range' (i + 1) (l.length - (i + 1))).flatMap (fun j =>
        F (l.getD i d) (l.getD j d))) =
    (orderedPairs l).flatMap (fun pr => F pr.1 pr.2) := by
  induction l with
  | nil => simp [orderedPairs]
  | cons a t ih =>
    rw [List.length_cons, List.range_succ_eq_map, List.flatMap_cons]
    rw [orderedPairs, List.flatMap_append, List.flatMap_map]
    congr 1
    · simp only [List.getD_cons_zero, Nat.add_sub_cancel]
      rw [List.range'_eq_map_range, List.flatMap_map]
      have h1 : ((fun j => F a ((a :: t).getD j d)) ∘ (fun x => 1 + x))
          = fun j => F a (t.getD j d) := by
        funext j
        simp [Function.comp, Nat.add_comm 1 j]
      rw [show (0 + 1) = 1 from rfl] at *
      calc (List.range t.length).flatMap ((fun j => F a ((a :: t).getD j d)) ∘ (fun x => 1 + x))
          = (List.range t.length).flatMap (fun j => F a (t.getD j d)) := by rw [h1]
        _ = t.flatMap (F a) := range_flatMap_getD t d (F a)
        _ = (t.map (fun q => (a, q))).flatMap (fun pr => F pr.1 pr.2) := by
              rw [List.flatMap_map]
    · rw [← ih]
      congr 1
      funext i
      have hL : t.length + 1 - (i.succ + 1) = t.length - (i + 1) := by omega
      rw [hL]
      rw [show i.succ + 1 = (i + 1) + 1 from rfl]
      rw [range'_succ_flatMap (i + 1) (t.length - (i + 1))]
      simp only [Nat.succ_eq_add_one, List.getD_cons_succ]

/-- C1: for every input list, the aspect detector's nested loops enumerate
every unordered pair exactly once in catalog order (outer index before
inner), fold the angular separation into `[0, 180]`, and for each aspect
definition in catalog order emit a `DetectedAspect` iff
`|diff - exactAngle| <= maximumOrb`, with the orb rounded to 2 decimals and
the definition's `maximumOrb` as `orbUsed`; all matches are emitted. -/
theorem aspect_detector_loop_matches_spec (planets : List PlanetPos) :
    calculateAspects planets = specDetect planets := by
  unfold calculateAspects specDetect
  rw [pairs_loop_eq aspectsForPair emptyPlanet planets]
  rfl

/-- C2: fixed-table examples — `[0°,180°]` yields exactly one Opposition
with orb 0; `[0°,15°]` yields zero Conjunctions; three bodies pairwise 120°
apart yield exactly three Trines, one per pair, each with orb 0. -/
theorem aspect_detector_fixed_examples :
    calculateAspects [⟨"A", 0⟩, ⟨"B", 180⟩] =
      [⟨"A", "B", "Opposition", "major", 0, 10⟩] ∧
    (calculateAspects [⟨"A", 0⟩, ⟨"B", 15⟩]).countP
      (fun a => a.aspect == "Conjunction") = 0 ∧
    calculateAspects [⟨"A", 0⟩, ⟨"B", 120⟩, ⟨"C", 240⟩] =
      [⟨"A", "B", "Trine", "major", 0, 8⟩, ⟨"A", "C", "Trine", "major", 0, 8⟩,
       ⟨"B", "C", "Trine", "major", 0, 8⟩] := by
  refine ⟨?_, ?_, ?_⟩ <;> with_unfolding_all decide

/-- C5: the zodiac mapper is total — for every rational degree the
normalized value lies in `[0, 360)`, the sign index lies in `[0, 11]`
(so it is its own clamp to that range), and the sign-table lookup
always succeeds. -/
theorem zodiac_mapper_total (degree : ℚ) :
    0 ≤ normDeg degree ∧ normDeg degree < 360 ∧
    0 ≤ signIndex degree ∧ signIndex degree ≤ 11 ∧
    (degreeToZodiacSign degree).isSome = true := by
  obtain ⟨h0, h1⟩ := normDeg_bounds degree
  have hi0 : 0 ≤ signIndex degree := by
    apply Int.floor_nonneg.mpr
    exact div_nonneg h0 (by norm_num)
  have hi1 : signIndex degree ≤ 11 := by
    have : signIndex degree < 12 := by
      apply Int.floor_lt.mpr
      rw [div_lt_iff₀ (by norm_num : (0:ℚ) < 30)]
      push_cast
      linarith
    omega
  refine ⟨h0, h1, hi0, hi1, ?_⟩
  have hlen : (signIndex degree).toNat < ZODIAC_SIGNS.length := by
    rw [show ZODIAC_SIGNS.length = 12 from rfl]
    omega
  have hget : listGetInt ZODIAC_SIGNS (signIndex degree) =
      some (ZODIAC_SIGNS.get ⟨(signIndex degree).toNat, hlen⟩) := by
    unfold listGetInt
    rw [if_pos hi0]
    exact List.get?_eq_get hlen
  unfold degreeToZodiacSign
  rw [hget]
  rfl

/-- C6: `normDeg` agrees with the mathematical modulus (so normalization is
correct for negative inputs), and the mapper's fixed postconditions hold:
`map 0 = Aries 0`, `map 30 = Taurus 0`, `map (-30) = Pisces 0`,
`map 360 = Aries 0`. -/
theorem zodiac_mapper_postconditions :
    (∀ degree : ℚ, normDeg degree = qmod degree 360) ∧
    degreeToZodiacSign 0 = some ⟨"Aries", "aries", 0⟩ ∧
    degreeToZodiacSign 30 = some ⟨"Taurus", "taurus", 0⟩ ∧
    degreeToZodiacSign (-30) = some ⟨"Pisces", "pisces", 0⟩ ∧
    degreeToZodiacSign 360 = some ⟨"Aries", "aries", 0⟩ := by
  refine ⟨normDeg_eq_qmod, ?_, ?_, ?_, ?_⟩ <;> with_unfolding_all decide

/-- C7: the degree formatter truncates (never rounds) at each step —
deg = floor x, min = floor ((x - deg) * 60),
sec = floor (((x - deg) * 60 - min) * 60) — and renders them as the
sexagesimal display string; in particular format 15.5 gives 15 degrees,
30 minutes, 0 seconds; format 0 gives all zeroes; and format 29.999 has
degrees 29 and minutes 59 (seconds 56, by truncation). -/
theorem degree_formatter_truncation :
    (∀ x : ℚ, dmsParts x =
        (⌊x⌋, ⌊(x - (⌊x⌋ : ℚ)) * 60⌋,
         ⌊((x - (⌊x⌋ : ℚ)) * 60 - (⌊(x - (⌊x⌋ : ℚ)) * 60⌋ : ℚ)) * 60⌋) ∧
      formatZodiacDegree x =
        toString (dmsParts x).1 ++ "° " ++ toString (dmsParts x).2.1 ++
          "\x27 " ++ toString (dmsParts x).2.2 ++ "\x22") ∧
    formatZodiacDegree (31 / 2) = "15° 30\x27 0\x22" ∧
    formatZodiacDegree 0 = "0° 0\x27 0\x22" ∧
    (dmsParts (29999 / 1000)).1 = 29 ∧ (dmsParts (29999 / 1000)).2.1 = 59 ∧
    (dmsParts (29999 / 1000)).2.2 = 56 := by
  refine ⟨fun x => ⟨rfl, rfl⟩, ?_, ?_, ?_, ?_, ?_⟩ <;> with_unfolding_all decide

-- The house-scan loop versus the declarative first-match description.

theorem houseScan_eq_find (n : ℚ) (cusps : ℕ → ℚ) (fuel : ℕ) :
    ∀ i, houseScan n cusps fuel i =
      ((List.range' i fuel).find? (houseMatch n cusps)).getD 1 := by
  induction fuel with
  | zero => intro i; simp [houseScan]
  | succ fuel ih =>
    intro i
    rw [List.range'_succ]
    cases h : houseMatch n cusps i with
    | true => simp [houseScan, h, List.find?_cons_of_pos]
    | false =>
      rw [List.find?_cons_of_neg _ (by simp [h])]
      simp only [houseScan, h, Bool.false_eq_true, if_false]
      exact ih (i + 1)

theorem houseScan_range (n : ℚ) (cusps : ℕ → ℚ) (fuel : ℕ) :
    ∀ i, houseScan n cusps fuel i = 1 ∨
      (i ≤ houseScan n cusps fuel i ∧ houseScan n cusps fuel i < i + fuel) := by
  induction fuel with
  | zero => intro i; left; rfl
  | succ fuel ih =>
    intro i
    cases h : houseMatch n cusps i with
    | true =>
      right
      simp only [houseScan, h, if_true]
      omega
    | false =>
      simp only [houseScan, h, Bool.false_eq_true, if_false]
      rcases ih (i + 1) with h1 | ⟨h2, h3⟩
      · left; exact h1
      · right; omega

theorem houseScan_fallback (n : ℚ) (cusps : ℕ → ℚ) (fuel : ℕ) :
    ∀ i, (∀ j, j < i + fuel → i ≤ j → houseMatch n cusps j = false) →
      houseScan n cusps fuel i = 1 := by
  induction fuel with
  | zero => intro i _; rfl
  | succ fuel ih =>
    intro i h
    have hi : houseMatch n cusps i = false := h i (by omega) (le_refl i)
    simp only [houseScan, hi, Bool.false_eq_true, if_false]
    exact ih (i + 1) (fun j hj1 hj2 => h j (by omega) (by omega))

/-- The spec's concrete cusp table `[_,0,30,60,90,120,150,180,210,240,270,
300,330]`, index 0 unused. -/
def testCusps : ℕ → ℚ := fun i =>
  [0, 0, 30, 60, 90, 120, 150, 180, 210, 240, 270, 300, 330].getD i 0

/-- C3: the house locator returns the first house in ascending order 1..12
whose wrap-aware span contains the normalized longitude; on the spec's
cusp table it places 0° and 15° in house 1, 30° in house 2 and 355° in
house 12. -/
theorem house_locator_first_match :
    (∀ (longitude : ℚ) (cusps : ℕ → ℚ),
      calculateHousePositionForPlanet longitude cusps =
        ((List.range' 1 12).find? (houseMatch (normDeg longitude) cusps)).getD 1) ∧
    calculateHousePositionForPlanet 0 testCusps = 1 ∧
    calculateHousePositionForPlanet 15 testCusps = 1 ∧
    calculateHousePositionForPlanet 30 testCusps = 2 ∧
    calculateHousePositionForPlanet 355 testCusps = 12 := by
  refine ⟨fun longitude cusps => houseScan_eq_find _ cusps 12 1, ?_, ?_, ?_, ?_⟩ <;>
    with_unfolding_all decide

/-- C4: the house locator is total and always returns a house number in
`[1, 12]`, for every longitude and every (possibly malformed) cusp
assignment; when no house in the scanned range matches, the scan falls
back to house 1 rather than failing. -/
theorem house_locator_total_fallback :
    (∀ (longitude : ℚ) (cusps : ℕ → ℚ),
      1 ≤ calculateHousePositionForPlanet longitude cusps ∧
      calculateHousePositionForPlanet longitude cusps ≤ 12) ∧
    (∀ (n : ℚ) (cusps : ℕ → ℚ) (fuel i : ℕ),
      (∀ j, j < i + fuel → i ≤ j → houseMatch n cusps j = false) →
      houseScan n cusps fuel i = 1) := by
  constructor
  · intro longitude cusps
    unfold calculateHousePositionForPlanet
    rcases houseScan_range (normDeg longitude) cusps 12 1 with h | ⟨h1, h2⟩
    · rw [h]; omega
    · omega
  · intro n cusps fuel i h
    exact houseScan_fallback n cusps fuel i h

/-- Witness for C4 at concrete inputs: a well-formed call lands in
`[1, 12]`, and a scan over a range where no span matches (all cusps above
the normalized longitude, strictly increasing) returns the fallback 1. -/
theorem house_locator_total_fallback_witness :
    (1 ≤ calculateHousePositionForPlanet 200 testCusps ∧
     calculateHousePositionForPlanet 200 testCusps ≤ 12) ∧
    houseScan 0 (fun i => (1000 : ℚ) + i) 12 13 = 1 :=
  ⟨house_locator_total_fallback.1 200 testCusps,
   house_locator_total_fallback.2 0 (fun i => (1000 : ℚ) + i) 12 13
     (by with_unfolding_all decide)⟩

/-- C8: for every chart (ascendant and midheaven longitudes are nonnegative
as ephemeris outputs), the derived descendant longitude is exactly
`(a + 180) mod 360` and the imum coeli longitude exactly
`(m + 180) mod 360`, and the corresponding chart angles are those derived
longitudes zodiac-mapped — never independently sourced. -/
theorem chart_angle_complement (a m : ℚ) (ha : 0 ≤ a) (hm : 0 ≤ m) :
    descendantDegree a = qmod (a + 180) 360 ∧
    imumCoeliDegree m = qmod (m + 180) 360 ∧
    (deriveChartAngles a m).descendant = mkChartAngle (qmod (a + 180) 360) ∧
    (deriveChartAngles a m).imumCoeli = mkChartAngle (qmod (m + 180) 360) := by
  have h1 : descendantDegree a = qmod (a + 180) 360 :=
    jsRem_eq_qmod_of_nonneg (a + 180) 360 (by linarith) (by norm_num)
  have h2 : imumCoeliDegree m = qmod (m + 180) 360 :=
    jsRem_eq_qmod_of_nonneg (m + 180) 360 (by linarith) (by norm_num)
  refine ⟨h1, h2, ?_, ?_⟩
  · show mkChartAngle (descendantDegree a) = _
    rw [h1]
  · show mkChartAngle (imumCoeliDegree m) = _
    rw [h2]

/-- Witness for C8 at `a = 10`, `m = 200`. -/
theorem chart_angle_complement_witness :
    descendantDegree 10 = qmod (10 + 180) 360 ∧
    imumCoeliDegree 200 = qmod (200 + 180) 360 ∧
    (deriveChartAngles 10 200).descendant = mkChartAngle (qmod (10 + 180) 360) ∧
    (deriveChartAngles 10 200).imumCoeli = mkChartAngle (qmod (200 + 180) 360) :=
  chart_angle_complement 10 200 (by with_unfolding_all decide)
    (by with_unfolding_all decide)

/-- C9: the assembled chart's sun sign is the zodiac sign of the (first)
planet whose stable key is `"sun"`, and `"Unknown"` when no such planet is
present — assembly never fails on a missing sun. -/
theorem chart_sun_sign (planets : List PlanetData) :
    (∀ p, planets.find? (fun q => q.key == "sun") = some p →
      p.key = "sun" ∧ p ∈ planets ∧ sunSignOf planets = p.zodiacSign) ∧
    ((∀ p ∈ planets, p.key ≠ "sun") → sunSignOf planets = "Unknown") := by
  constructor
  · intro p hp
    have h1 := List.find?_some hp
    have h2 : p ∈ planets := List.mem_of_find?_eq_some hp
    refine ⟨by simpa using h1, h2, ?_⟩
    unfold sunSignOf
    rw [hp]
  · intro h
    have hn : planets.find? (fun q => q.key == "sun") = none := by
      rw [List.find?_eq_none]
      intro x hx
      simpa using h x hx
    unfold sunSignOf
    rw [hn]

/-- Witness for C9: a one-planet chart with the sun in Leo, and the empty
chart falling back to `"Unknown"`. -/
theorem chart_sun_sign_witness :
    ((⟨"Sun", "sun", "Leo"⟩ : PlanetData).key = "sun" ∧
     (⟨"Sun", "sun", "Leo"⟩ : PlanetData) ∈ ([⟨"Sun", "sun", "Leo"⟩] : List PlanetData) ∧
     sunSignOf [⟨"Sun", "sun", "Leo"⟩] = (⟨"Sun", "sun", "Leo"⟩ : PlanetData).zodiacSign) ∧
    sunSignOf [] = "Unknown" :=
  ⟨(chart_sun_sign [⟨"Sun", "sun", "Leo"⟩]).1 ⟨"Sun", "sun", "Leo"⟩
      (by with_unfolding_all decide),
   (chart_sun_sign []).2 (by simp)⟩

-- Rounding to two decimals never pushes a value past an integer bound.

theorem round2_le_intCast (x : ℚ) (n : ℤ) (h : x ≤ (n : ℚ)) :
    round2 x ≤ (n : ℚ) := by
  unfold round2
  have h2 : ⌊x * 100 + 1 / 2⌋ ≤ 100 * n := by
    have hlt : ⌊x * 100 + 1 / 2⌋ < 100 * n + 1 := by
      apply Int.floor_lt.mpr
      push_cast
      linarith
    omega
  have h3 : (⌊x * 100 + 1 / 2⌋ : ℚ) ≤ ((100 * n : ℤ) : ℚ) := by exact_mod_cast h2
  calc (⌊x * 100 + 1 / 2⌋ : ℚ) / 100 ≤ ((100 * n : ℤ) : ℚ) / 100 := by gcongr
    _ = (n : ℚ) := by push_cast; ring

/-- C10: every detected aspect's reported orb — even after rounding to two
decimal places — is at most the matched definition's maximum orb
(`orbUsed`), the maximum orbs of the fixed table being integers. -/
theorem aspect_orb_within_max (planets : List PlanetPos) (a : DetectedAspect)
    (ha : a ∈ calculateAspects planets) : a.orb ≤ a.orbUsed := by
  unfold calculateAspects at ha
  rw [List.mem_flatMap] at ha
  obtain ⟨i, _, ha⟩ := ha
  rw [List.mem_flatMap] at ha
  obtain ⟨j, _, ha⟩ := ha
  unfold aspectsForPair at ha
  rw [List.mem_filterMap] at ha
  obtain ⟨t, ht, hsome⟩ := ha
  simp only at hsome
  split_ifs at hsome with hle
  injection hsome with hEq
  subst hEq
  show round2 _ ≤ t.orb
  fin_cases ht <;>
    exact_mod_cast round2_le_intCast _ _ (by exact_mod_cast hle)

/-- Witness for C10: the Opposition detected between 0° and 180° reports
orb 0 against `orbUsed` 10. -/
theorem aspect_orb_within_max_witness :
    (⟨"A", "B", "Opposition", "major", 0, 10⟩ : DetectedAspect).orb ≤
      (⟨"A", "B", "Opposition", "major", 0, 10⟩ : DetectedAspect).orbUsed :=
  aspect_orb_within_max [⟨"A", 0⟩, ⟨"B", 180⟩] _ (by with_unfolding_all decide)
